import Mathlib

/-!
Verification of the extraction pipeline of the twitter-capture repository.

The Python/JS source is shallowly embedded as executable Lean functions:
  * string primitives model Python `in` / `str.replace` / `str.strip` /
    `str.split("?")[0]` and JS `includes` / `trim` / `startsWith`;
  * a small backtracking regex engine (type RE) models the exact regex
    patterns from `re.findall` / `re.search` / JS `String.match`; every
    quantifier in the source patterns ranges over a single character class,
    which the engine exploits (greedy = longest first, lazy = shortest
    first, leftmost match, one capture group);
  * the rendered DOM is a tree (type Node); querySelectorAll is a filtered
    preorder traversal, in document order;
  * network / browser effects are an explicit environment (Env): response
    status and body, and the outcome of the render attempt; exceptions in
    the source are modelled by the crash outcome and by Boolean flags,
    `None` returns by PyResult.noneR.
-/

set_option maxRecDepth 100000
set_option maxHeartbeats 4000000

/-! ## String primitives -/

/-- Prefix test on character lists (helper for substring and replace). -/
def isPrefixCL : List Char → List Char → Bool
  | [], _ => true
  | _ :: _, [] => false
  | a :: as, b :: bs => a == b && isPrefixCL as bs

/-- Occurrence test of `pat` inside a list (Python `pat in s`, JS `includes`). -/
def containsSub : List Char → List Char → Bool
  | pat, [] => isPrefixCL pat []
  | pat, c :: rest => isPrefixCL pat (c :: rest) || containsSub pat rest

/-- Python `pat in s` / JS `s.includes(pat)`. -/
def containsSubstr (s pat : String) : Bool := containsSub pat.data s.data

/-- JS `s.startsWith(pre)` / Python `s.startswith(pre)`. -/
def strStarts (s pre : String) : Bool := isPrefixCL pre.data s.data

/-- Python `str.replace` on lists: replace all non-overlapping occurrences,
left to right.  The fuel argument (instantiated with the list length) keeps
the recursion structural so that the kernel can evaluate it. -/
def replaceAllF (pat rep : List Char) : Nat → List Char → List Char
  | 0, s => s
  | _, [] => []
  | fuel + 1, c :: rest =>
    if pat ≠ [] ∧ isPrefixCL pat (c :: rest) then
      rep ++ replaceAllF pat rep fuel (List.drop (pat.length - 1) rest)
    else
      c :: replaceAllF pat rep fuel rest

/-- Python `s.replace(old, new)`. -/
def pyReplace (s old new : String) : String :=
  ⟨replaceAllF old.data new.data s.data.length s.data⟩

/-- Strip whitespace from both ends of a character list. -/
def stripChars (l : List Char) : List Char :=
  ((l.dropWhile Char.isWhitespace).reverse.dropWhile Char.isWhitespace).reverse

/-- Python `s.strip()` with no argument. -/
def pyStrip (s : String) : String := ⟨stripChars s.data⟩

/-- JS `s.trim()` (same whitespace behaviour as Python strip here). -/
def jsTrim (s : String) : String := ⟨stripChars s.data⟩

/-- ASCII lower-casing of one character (models `str.lower` on the ASCII
error phrase checked by the source). -/
def lowerChar (c : Char) : Char :=
  if 'A' ≤ c ∧ c ≤ 'Z' then Char.ofNat (c.toNat + 32) else c

/-- Python `s.lower()` (ASCII fragment). -/
def lowerStr (s : String) : String := ⟨s.data.map lowerChar⟩

/-- Python `s.split("?")[0]`: the prefix before the first question mark. -/
def beforeQ (s : String) : String := ⟨s.data.takeWhile (fun c => c != '?')⟩

/-! ## Regex engine

Each pattern of the source applies `+` only to character classes, so a
quantified item always consumes at least one character.  Matching is CPS
backtracking: greedy `+` tries the longest repetition first, lazy the
shortest, alternatives in written order; scanning tries positions left to
right, which is exactly the leftmost-match rule of Python `re` and JS
`String.match`. -/

inductive RE where
  | lit : String → RE
  | one : (Char → Bool) → RE
  | plusG : (Char → Bool) → RE
  | plusL : (Char → Bool) → RE
  | opt : RE → RE
  | alt : RE → RE → RE
  | cat : RE → RE → RE
  | grp : RE → RE

/-- The list `[n, n-1, ..., 1]` (candidate repetition lengths, greedy order). -/
def natsDown : Nat → List Nat
  | 0 => []
  | n + 1 => (n + 1) :: natsDown n

/-- Try each candidate consumed length in order until the continuation
succeeds. -/
def tryLens {α : Type} (inp : List Char) (k : List Char → Option α) : List Nat → Option α
  | [] => none
  | n :: rest =>
    match k (inp.drop n) with
    | some v => some v
    | none => tryLens inp k rest

/-- CPS matcher: `r.mtch inp k` tries every way `r` can match a prefix of
`inp` and calls `k` with the remaining input and the capture of the single
group, backtracking while `k` fails. -/
def RE.mtch {α : Type} : RE → List Char → (List Char → Option (List Char) → Option α) → Option α
  | .lit s, inp, k => if isPrefixCL s.data inp then k (inp.drop s.data.length) none else none
  | .one f, inp, k =>
    match inp with
    | [] => none
    | c :: rest => if f c then k rest none else none
  | .plusG f, inp, k => tryLens inp (fun rest => k rest none) (natsDown (inp.takeWhile f).length)
  | .plusL f, inp, k =>
    tryLens inp (fun rest => k rest none) (natsDown (inp.takeWhile f).length).reverse
  | .opt r, inp, k =>
    match r.mtch inp k with
    | some v => some v
    | none => k inp none
  | .alt a b, inp, k =>
    match a.mtch inp k with
    | some v => some v
    | none => b.mtch inp k
  | .cat a b, inp, k =>
    a.mtch inp (fun rest c1 => b.mtch rest (fun rest2 c2 => k rest2 (c1 <|> c2)))
  | .grp r, inp, k =>
    r.mtch inp (fun rest _ => k rest (some (inp.take (inp.length - rest.length))))

/-- Match at the current position, returning the rest of the input after the
match together with the capture group. -/
def mtchEnd (r : RE) (inp : List Char) : Option (List Char × Option (List Char)) :=
  r.mtch inp (fun rest cap => some (rest, cap))

/-- Scan for the leftmost match and return its capture group. -/
def searchCapAux (r : RE) : List Char → Option (List Char)
  | [] =>
    match mtchEnd r [] with
    | some pr => some (pr.2.getD [])
    | none => none
  | c :: rest =>
    match mtchEnd r (c :: rest) with
    | some pr => some (pr.2.getD [])
    | none => searchCapAux r rest

/-- Python `re.search(p, s).group(1)` / JS `s.match(p)[1]` (none if no match). -/
def search1cap (r : RE) (s : String) : Option String :=
  (searchCapAux r s.data).map (fun l => ⟨l⟩)

/-- Python `re.findall`: leftmost non-overlapping matches, scanning resumes
after each match; returns the group-1 captures.  Fuel is the input length
(every source pattern consumes at least one character per match). -/
def findallAux (r : RE) : Nat → List Char → List String
  | 0, _ => []
  | fuel + 1, inp =>
    match mtchEnd r inp with
    | some (rest, cap) => String.mk (cap.getD []) :: findallAux r fuel rest
    | none =>
      match inp with
      | [] => []
      | _ :: tail => findallAux r fuel tail

/-- Python `re.findall(p, s)` (group-1 captures). -/
def findall1 (r : RE) (s : String) : List String := findallAux r (s.data.length + 1) s.data

/-! ## The concrete character classes and patterns of the source -/

/-- Class `[^>]`. -/
def notGtC (c : Char) : Bool := c != '>'

/-- Class `["']`. -/
def quoteC (c : Char) : Bool := c == '"' || c.toNat == 39

/-- Class `[^"']`. -/
def notQuoteC (c : Char) : Bool := !(quoteC c)

/-- Class `[a-zA-Z0-9_]`. -/
def wordC (c : Char) : Bool :=
  (decide ('a' ≤ c) && decide (c ≤ 'z')) || (decide ('A' ≤ c) && decide (c ≤ 'Z')) ||
    (decide ('0' ≤ c) && decide (c ≤ '9')) || c == '_'

/-- Class `[a-zA-Z0-9_-]`. -/
def wordDashC (c : Char) : Bool := wordC c || c == '-'

/-- Sequencing of a pattern list. -/
def seqL (l : List RE) : RE := l.foldr RE.cat (.lit "")

/-- The single-quote-class item `["']`. -/
def qcls : RE := .one quoteC

/-- Pattern `<meta[^>]+ATTR=["']VAL["'][^>]+content=["']([^"']+)["']`
(attribute before content), as in extractor.py lines 24, 34, 48, 67. -/
def metaREfwd (attr val : String) : RE :=
  seqL [.lit "<meta", .plusG notGtC, .lit (attr ++ "="), qcls, .lit val, qcls,
        .plusG notGtC, .lit "content=", qcls, .grp (.plusG notQuoteC), qcls]

/-- Pattern `<meta[^>]+content=["']([^"']+)["'][^>]+ATTR=["']VAL["']`
(content before attribute), as in extractor.py lines 29 and 38. -/
def metaRErev (attr val : String) : RE :=
  seqL [.lit "<meta", .plusG notGtC, .lit "content=", qcls, .grp (.plusG notQuoteC), qcls,
        .plusG notGtC, .lit (attr ++ "="), qcls, .lit val, qcls]

/-- Pattern `\((@[a-zA-Z0-9_]+)\)` (extractor.py line 52). -/
def handleRE : RE := seqL [.lit "(", .grp (.cat (.lit "@") (.plusG wordC)), .lit ")"]

/-- Pattern `/([a-zA-Z0-9_]+)/status/` (extractor.py line 61; the rendered
article uses the same pattern on `window.location.pathname`, line 243). -/
def urlHandleRE : RE := seqL [.lit "/", .grp (.plusG wordC), .lit "/status/"]

/-- JS pattern `tweet_video(?:_thumb)?\/([a-zA-Z0-9_-]+)(?:\.jpg|\.mp4|\.gif)?`
(extractor.py line 296). -/
def gifRE : RE :=
  seqL [.lit "tweet_video", .opt (.lit "_thumb"), .lit "/", .grp (.plusG wordDashC),
        .opt (.alt (.lit ".jpg") (.alt (.lit ".mp4") (.lit ".gif")))]

/-! ## extract_from_meta_tags (extractor.py lines 17-82) -/

structure TweetData where
  username : String
  handle : String
  text : String
  media_urls : List String
  video_urls : List String
  timestamp : String
deriving DecidableEq

/-- One iteration of `if match and match not in image_urls: image_urls.append(match)`. -/
def addNew (acc : List String) (m : String) : List String :=
  if m ≠ "" ∧ m ∉ acc then acc ++ [m] else acc

/-- The four sequential findall loops over og:image / twitter:image patterns
(extractor.py lines 21-40). -/
def metaImageUrls (html : String) : List String :=
  (findall1 (metaRErev "name" "twitter:image") html).foldl addNew
    ((findall1 (metaREfwd "name" "twitter:image") html).foldl addNew
      ((findall1 (metaRErev "property" "og:image") html).foldl addNew
        ((findall1 (metaREfwd "property" "og:image") html).foldl addNew [])))

/-- Parsing of og:title into (username, handle) (extractor.py lines 42-57). -/
def parseAuthorFromTitle (html : String) : String × String :=
  match search1cap (metaREfwd "property" "og:title") html with
  | some title =>
    match search1cap handleRE title with
    | some h => (pyStrip (pyReplace title h ""), h)
    | none => (title, "@unknown")
  | none => ("Unknown", "@unknown")

/-- URL fallback for the handle (extractor.py lines 59-64): when the handle
is unresolved, both the handle and the username are set from the path
segment before `/status/`. -/
def authorWithUrlFallback (html url : String) : String × String :=
  if (parseAuthorFromTitle html).2 = "@unknown" then
    match search1cap urlHandleRE url with
    | some seg => (seg, "@" ++ seg)
    | none => parseAuthorFromTitle html
  else parseAuthorFromTitle html

/-- extractor.py `extract_from_meta_tags`: returns the tweet dict when at
least one image URL was found, and Python `None` otherwise. -/
def extract_from_meta_tags (html url : String) : Option TweetData :=
  if metaImageUrls html ≠ [] then
    some ⟨(authorWithUrlFallback html url).1, (authorWithUrlFallback html url).2,
          (search1cap (metaREfwd "property" "og:description") html).getD "",
          metaImageUrls html, [], "Unknown"⟩
  else none

/-! ## Canonicalization and fast path (extractor.py lines 97-127) -/

/-- extractor.py line 99:
`url.replace('twitter.com', 'fixupx.com').replace('x.com', 'fixupx.com')`. -/
def canonicalize (url : String) : String :=
  pyReplace (pyReplace url "twitter.com" "fixupx.com") "x.com" "fixupx.com"

/-- A Python return value of `extract_tweet_data`: `None`, an error dict, or
a tweet-data dict. -/
inductive PyResult where
  | noneR : PyResult
  | errR : String → String → PyResult
  | dataR : TweetData → PyResult
deriving DecidableEq

/-- The error message of extractor.py lines 117 and 211. -/
def twitterErrMsg : String :=
  "Twitter returned an error. The tweet may be deleted, private, or age-restricted."

/-- Outcome of the fast path: terminate the pipeline with a value, or fall
through to the Playwright render. -/
inductive FastStep where
  | terminate : PyResult → FastStep
  | fallthrough : FastStep
deriving DecidableEq

/-- The fast path of `extract_tweet_data` (extractor.py lines 105-127):
non-200 status returns `None`; then the error-page classifier (line 115);
then meta-tag extraction, returning the dict when it has media URLs;
otherwise fall through to the render. -/
def fastPhase (url : String) (status : Nat) (body : String) : FastStep :=
  if status ≠ 200 then .terminate .noneR
  else if containsSubstr body "Something went wrong" && !containsSubstr body "og:image" then
    .terminate (.errR "twitter_error" twitterErrMsg)
  else
    match extract_from_meta_tags body (canonicalize url) with
    | some d => if d.media_urls ≠ [] then .terminate (.dataR d) else .fallthrough
    | none => .fallthrough

/-! ## Rendered DOM model -/

/-- A DOM node: an element with tag, attributes and children, or a text
node.  `querySelectorAll` results are in document order, i.e. preorder. -/
inductive Node where
  | elem : String → List (String × String) → List Node → Node
  | text : String → Node

mutual
/-- All proper descendants of a node, in document order. -/
def Node.subnodes : Node → List Node
  | .text _ => []
  | .elem _ _ cs => subnodesList cs
def subnodesList : List Node → List Node
  | [] => []
  | c :: cs => c :: (Node.subnodes c ++ subnodesList cs)
end

mutual
/-- JS `textContent`: concatenation of all descendant text. -/
def Node.textContent : Node → String
  | .text s => s
  | .elem _ _ cs => textContentList cs
def textContentList : List Node → String
  | [] => ""
  | c :: cs => Node.textContent c ++ textContentList cs
end

/-- JS `getAttribute` (none models `null`). -/
def Node.getAttr : Node → String → Option String
  | .elem _ attrs _, a => (attrs.find? (fun p => p.1 == a)).map (fun p => p.2)
  | .text _, _ => none

def Node.isElem : Node → Bool
  | .elem _ _ _ => true
  | .text _ => false

def Node.tagIs (t : String) : Node → Bool
  | .elem t2 _ _ => t2 == t
  | .text _ => false

/-- CSS `[attr*=sub]`: the attribute exists and contains the substring. -/
def attrContains (a sub : String) (n : Node) : Bool :=
  match n.getAttr a with
  | some v => containsSubstr v sub
  | none => false

/-- CSS `[attr]`. -/
def hasAttr (a : String) (n : Node) : Bool := (n.getAttr a).isSome

/-- CSS `[attr="v"]`. -/
def attrIs (a v : String) (n : Node) : Bool := n.getAttr a == some v

/-- `querySelectorAll` on a subtree: matching element descendants in
document order. -/
def qAll (p : Node → Bool) (n : Node) : List Node :=
  n.subnodes.filter (fun m => m.isElem && p m)

/-! ## Article-DOM extraction (the page.evaluate of extractor.py lines 215-328) -/

/-- Author resolution (lines 219-247): User-Name span texts, then the
pathname fallback for the handle only. -/
def articleAuthor (pathname : String) (article : Node) : String × String :=
  let base :=
    match (qAll (attrIs "data-testid" "User-Name") article).head? with
    | some nameEl =>
      let texts := ((qAll (Node.tagIs "span") nameEl).map
          (fun sp => jsTrim sp.textContent)).filter (fun t => decide (0 < t.length))
      ((texts.find? (fun t => !(strStarts t "@") && decide (0 < t.length))).getD "Unknown",
       (texts.find? (fun t => strStarts t "@")).getD "@unknown")
    | none => ("Unknown", "@unknown")
  if base.2 = "@unknown" then
    match search1cap urlHandleRE pathname with
    | some seg => (base.1, "@" ++ seg)
    | none => base
  else base

/-- Tweet-text resolution (lines 249-258). -/
def articleText (article : Node) : String :=
  match (qAll (fun n => Node.tagIs "div" n && hasAttr "lang" n) article).head? with
  | some tc =>
    let spans := qAll (Node.tagIs "span") tc
    if 0 < spans.length then jsTrim (String.join (spans.map Node.textContent))
    else jsTrim tc.textContent
  | none => ""

/-- The filtered photo sources of lines 260-266, before `.slice(0, 4)`. -/
def qualifyingImgs (article : Node) : List String :=
  ((qAll (fun n => Node.tagIs "img" n && attrContains "src" "pbs.twimg.com" n) article).map
      (fun n => (n.getAttr "src").getD ""))
    |>.filter (fun s => s != "")
    |>.filter (fun s => !containsSubstr s "profile_images")
    |>.filter (fun s => !containsSubstr s "amplify_video_thumb")
    |>.filter (fun s => !containsSubstr s "/emoji/")
    |>.filter (fun s => !containsSubstr s "_normal.")

/-- `if (x) videos.push(x)` for a source value. -/
def pushIfSrc (acc : List String) (so : Option String) : List String :=
  match so with
  | some s => if s ≠ "" then acc ++ [s] else acc
  | none => acc

/-- The video elements with their own src and their source-children srcs
(lines 271-278). -/
def videoSrcLists (article : Node) : List (Option String × List (Option String)) :=
  (qAll (Node.tagIs "video") article).map
    (fun v => (v.getAttr "src", (qAll (Node.tagIs "source") v).map (fun s => s.getAttr "src")))

def videoStep (acc : List String) (pr : Option String × List (Option String)) : List String :=
  pr.2.foldl pushIfSrc (pushIfSrc acc pr.1)

/-- src / data-src attribute pairs of every element (lines 280-290). -/
def allSrcAttrs (article : Node) : List (Option String × Option String) :=
  (article.subnodes.filter Node.isElem).map (fun el => (el.getAttr "src", el.getAttr "data-src"))

/-- `if (src && src.includes('video.twimg.com') && !videos.includes(src)) videos.push(src)`. -/
def pushIfVideoHost (acc : List String) (so : Option String) : List String :=
  match so with
  | some s =>
    if s ≠ "" ∧ containsSubstr s "video.twimg.com" = true ∧ s ∉ acc then acc ++ [s] else acc
  | none => acc

def srcScanStep (acc : List String) (pr : Option String × Option String) : List String :=
  pushIfVideoHost (pushIfVideoHost acc pr.1) pr.2

/-- JS `a || b` over nullable attribute strings (empty string is falsy). -/
def jsOrAttr (a b : Option String) : Option String :=
  match a with
  | some s => if s ≠ "" then some s else b
  | none => b

/-- The `img[src*="tweet_video"]` elements' effective sources (lines 292-294). -/
def gifSources (article : Node) : List (Option String) :=
  (qAll (fun n => Node.tagIs "img" n && attrContains "src" "tweet_video" n) article).map
    (fun im => jsOrAttr (im.getAttr "src") (im.getAttr "data-src"))

/-- The canonical direct video URL built from a captured GIF id (line 299). -/
def gifVideoUrl (i : String) : String := "https://video.twimg.com/tweet_video/" ++ i ++ ".mp4"

/-- The GIF-thumbnail rewrite: capture the id and substitute it into the
video-asset URL (lines 296-299). -/
def rewriteGifThumb (s : String) : Option String := (search1cap gifRE s).map gifVideoUrl

/-- One iteration of the GIF loop (lines 293-305). -/
def gifStep (acc : List String) (so : Option String) : List String :=
  match so with
  | some s =>
    if s ≠ "" ∧ containsSubstr s "tweet_video" = true then
      match rewriteGifThumb s with
      | some vurl => if vurl ∉ acc then acc ++ [vurl] else acc
      | none => acc
    else acc
  | none => acc

/-- The `[data-video-url]` attribute values (lines 307-313). -/
def dataVideoUrls (article : Node) : List (Option String) :=
  (qAll (hasAttr "data-video-url") article).map (fun el => el.getAttr "data-video-url")

/-- The full video list of the article evaluate, in push order, before the
final Set dedup (lines 269-313). -/
def articleVideos (article : Node) : List String :=
  (dataVideoUrls article).foldl pushIfVideoHost
    ((gifSources article).foldl gifStep
      ((allSrcAttrs article).foldl srcScanStep
        ((videoSrcLists article).foldl videoStep [])))

/-- First-seen-order dedup keyed by a string (JS `new Set`, and the
seen-set dedup of media_extractor.py lines 125-131). -/
def dedupBy {β : Type} (key : β → String) : List String → List β → List β
  | _, [] => []
  | seen, b :: rest =>
    if key b ∈ seen then dedupBy key seen rest else b :: dedupBy key (key b :: seen) rest

/-- JS `[...new Set(videos)]`. -/
def dedupStr (l : List String) : List String := dedupBy (fun s => s) [] l

/-- Timestamp resolution (lines 317-318); `now` models
`new Date().toLocaleString()`. -/
def articleTimestamp (now : String) (article : Node) : String :=
  match (qAll (Node.tagIs "time") article).head? with
  | some t => jsTrim t.textContent
  | none => now

/-- The record returned by the article evaluate (lines 320-327). -/
def extractArticle (pathname now : String) (article : Node) : TweetData :=
  ⟨(articleAuthor pathname article).1, (articleAuthor pathname article).2,
   articleText article, (qualifyingImgs article).take 4,
   dedupStr (articleVideos article), articleTimestamp now article⟩

/-! ## media_extractor.py extract_media_from_tweet (lines 82-133) -/

structure MediaRec where
  type : String
  url : String
deriving DecidableEq

/-- One iteration of the image loop (media_extractor.py lines 97-109):
skip video thumbnails, otherwise strip the query and append the
maximum-resolution parameter. -/
def photoStep (acc : List MediaRec) (im : Node) : List MediaRec :=
  match im.getAttr "src" with
  | some s =>
    if strStarts s "http" then
      if containsSubstr s "video_thumb" then acc
      else acc ++ [⟨"photo", beforeQ s ++ "?name=4096x4096"⟩]
    else acc
  | none => acc

/-- One iteration of the video loop (lines 112-116). -/
def videoRecStep (acc : List MediaRec) (v : Node) : List MediaRec :=
  match v.getAttr "src" with
  | some s => if strStarts s "http" then acc ++ [⟨"video", s⟩] else acc
  | none => acc

/-- One iteration of the gif loop (lines 119-123). -/
def gifRecStep (acc : List MediaRec) (g : Node) : List MediaRec :=
  match g.getAttr "src" with
  | some s => if strStarts s "http" then acc ++ [⟨"gif", s⟩] else acc
  | none => acc

def isArticleRole (n : Node) : Bool := Node.tagIs "article" n && attrIs "role" "article" n

/-- Concatenation of per-article query results (descendant combinator
`article[role='article'] X`). -/
def flatQ (f : Node → List Node) : List Node → List Node
  | [] => []
  | n :: rest => f n ++ flatQ f rest

/-- The media list of media_extractor.py before the final dedup
(lines 93-123). -/
def rawMediaList (page : Node) : List MediaRec :=
  (flatQ (qAll (fun n => Node.tagIs "img" n && attrContains "src" "gif" n))
      (qAll isArticleRole page)).foldl gifRecStep
    ((flatQ (qAll (Node.tagIs "video")) (qAll isArticleRole page)).foldl videoRecStep
      ((flatQ (qAll (fun n => Node.tagIs "img" n && attrContains "src" "media" n))
          (qAll isArticleRole page)).foldl photoStep []))

/-- media_extractor.py `extract_media_from_tweet` DOM scan: the raw list
followed by the seen-set dedup on URLs (lines 125-133). -/
def extract_media_from_tweet (page : Node) : List MediaRec :=
  dedupBy MediaRec.url [] (rawMediaList page)

/-! ## The full pipeline (extractor.py extract_tweet_data) -/

/-- The dict computed by the rendered-page meta evaluate (lines 149-191);
its internals run in the browser, so the model takes it as environment
data.  `has_meta` is the `!!(ogImage || twitterImage)` flag. -/
structure RMeta where
  username : String
  handle : String
  text : String
  media_urls : List String
  has_meta : Bool

/-- Outcome of the Playwright render: `crash` models any exception raised
inside the inner try (navigation, evaluation, selector timeout), which the
source catches and converts to `None`; `ok` carries the rendered meta dict,
the page content, the article-wait success flag and the article subtree
(`none` models the evaluate returning `null`). -/
inductive RenderOutcome where
  | crash : RenderOutcome
  | ok : RMeta → String → Bool → Option Node → RenderOutcome

/-- The ambient effects of one extraction call. -/
structure Env where
  fetchCrash : Bool
  status : Nat
  body : String
  render : RenderOutcome
  pathname : String
  now : String

/-- The Playwright fallback (extractor.py lines 129-344): rendered meta
tags, then the lowercase error-phrase check, then the article wait and the
article evaluate; every caught exception returns `None`. -/
def renderPhase (env : Env) : PyResult :=
  match env.render with
  | .crash => .noneR
  | .ok meta content articleFound artOpt =>
    if meta.has_meta && !meta.media_urls.isEmpty then
      .dataR ⟨meta.username, meta.handle, meta.text, meta.media_urls, [], "Unknown"⟩
    else if containsSubstr (lowerStr content) "something went wrong" then
      .errR "twitter_error" twitterErrMsg
    else if !articleFound then .noneR
    else
      match artOpt with
      | some art => .dataR (extractArticle env.pathname env.now art)
      | none => .noneR

/-- extractor.py `extract_tweet_data` as a function of the call's
environment: the outer try catches the fetch (`fetchCrash`), then the fast
path, then the render fallback. -/
def extract_tweet_data (url : String) (env : Env) : PyResult :=
  if env.fetchCrash then .noneR
  else
    match fastPhase url env.status env.body with
    | .terminate r => r
    | .fallthrough => renderPhase env

/-! ## Helper lemmas about folds and dedup -/

lemma mem_foldl_of_mem {α β : Type} (step : List β → α → List β)
    (hstep : ∀ acc a x, x ∈ acc → x ∈ step acc a) :
    ∀ (l : List α) (acc : List β) (x : β), x ∈ acc → x ∈ l.foldl step acc := by
  intro l
  induction l with
  | nil => intro acc x hx; simpa using hx
  | cons a t ih => intro acc x hx; exact ih _ _ (hstep acc a x hx)

lemma mem_foldl_append_prop {α β : Type} (P : β → Prop) (step : List β → α → List β)
    (h : ∀ acc a m, m ∈ step acc a → m ∈ acc ∨ P m) :
    ∀ (l : List α) (acc : List β) (m : β), m ∈ l.foldl step acc → m ∈ acc ∨ P m := by
  intro l
  induction l with
  | nil => intro acc m hm; exact Or.inl (by simpa using hm)
  | cons a t ih =>
    intro acc m hm
    rcases ih _ _ hm with h1 | h2
    · exact h acc a m h1
    · exact Or.inr h2

lemma dedupBy_sublist {β : Type} (key : β → String) :
    ∀ (l : List β) (seen : List String), List.Sublist (dedupBy key seen l) l := by
  intro l
  induction l with
  | nil => intro seen; simp [dedupBy]
  | cons b t ih =>
    intro seen
    simp only [dedupBy]
    split
    · exact (ih seen).cons b
    · exact (ih (key b :: seen)).cons₂ b

lemma dedupBy_mem_key {β : Type} (key : β → String) :
    ∀ (l : List β) (seen : List String) (b : β), b ∈ l →
      key b ∈ seen ∨ key b ∈ (dedupBy key seen l).map key := by
  intro l
  induction l with
  | nil => intro seen b hb; simp at hb
  | cons c t ih =>
    intro seen b hb
    simp only [dedupBy]
    rcases List.mem_cons.mp hb with rfl | hbt
    · split
      · next hin => exact Or.inl hin
      · exact Or.inr (by simp)
    · split
      · exact ih seen b hbt
      · rcases ih (key c :: seen) b hbt with hin | hmap
        · rcases List.mem_cons.mp hin with heq | hseen
          · exact Or.inr (by simp [heq])
          · exact Or.inl hseen
        · exact Or.inr (by simp [hmap])

lemma dedupBy_nodup_key {β : Type} (key : β → String) :
    ∀ (l : List β) (seen : List String),
      ((dedupBy key seen l).map key).Nodup ∧ ∀ u ∈ (dedupBy key seen l).map key, u ∉ seen := by
  intro l
  induction l with
  | nil => intro seen; simp [dedupBy]
  | cons c t ih =>
    intro seen
    simp only [dedupBy]
    split
    · exact ih seen
    · next hnin =>
      obtain ⟨hnd, hout⟩ := ih (key c :: seen)
      refine ⟨?_, ?_⟩
      · simp only [List.map_cons, List.nodup_cons]
        exact ⟨fun hmem => (hout _ hmem) (List.mem_cons_self _ _), hnd⟩
      · intro u hu
        simp only [List.map_cons, List.mem_cons] at hu
        rcases hu with rfl | hu
        · exact hnin
        · exact fun hus => (hout u hu) (List.mem_cons_of_mem _ hus)

lemma mem_dedupStr : ∀ (l seen : List String) (x : String), x ∈ l → x ∉ seen →
    x ∈ dedupBy (fun s => s) seen l := by
  intro l
  induction l with
  | nil => intro seen x hx _; simp at hx
  | cons c t ih =>
    intro seen x hx hns
    simp only [dedupBy]
    rcases List.mem_cons.mp hx with rfl | hxt
    · split
      · next hin => exact absurd hin hns
      · exact List.mem_cons_self _ _
    · split
      · exact ih seen x hxt hns
      · by_cases hxc : x = c
        · subst hxc; exact List.mem_cons_self _ _
        · refine List.mem_cons_of_mem _ (ih (c :: seen) x hxt ?_)
          simp only [List.mem_cons, not_or]
          exact ⟨hxc, hns⟩

lemma addNew_nodup : ∀ (l acc : List String), acc.Nodup → (l.foldl addNew acc).Nodup := by
  intro l
  induction l with
  | nil => intro acc h; simpa using h
  | cons m t ih =>
    intro acc h
    refine ih _ ?_
    unfold addNew
    split
    · next hc =>
      refine List.nodup_append.mpr ⟨h, List.nodup_singleton m, ?_⟩
      intro a ha hb
      simp only [List.mem_singleton] at hb
      subst hb
      exact hc.2 ha
    · exact h

lemma metaImageUrls_nodup (html : String) : (metaImageUrls html).Nodup := by
  unfold metaImageUrls
  exact addNew_nodup _ _ (addNew_nodup _ _ (addNew_nodup _ _ (addNew_nodup _ _ List.nodup_nil)))

/-! ## Helper lemmas about the media steps -/

lemma pushIfSrc_mono (acc : List String) (so : Option String) (x : String) (hx : x ∈ acc) :
    x ∈ pushIfSrc acc so := by
  cases so with
  | none => simpa [pushIfSrc] using hx
  | some s =>
    simp only [pushIfSrc]
    split
    · exact List.mem_append_left _ hx
    · exact hx

lemma pushIfVideoHost_mono (acc : List String) (so : Option String) (x : String) (hx : x ∈ acc) :
    x ∈ pushIfVideoHost acc so := by
  cases so with
  | none => simpa [pushIfVideoHost] using hx
  | some s =>
    simp only [pushIfVideoHost]
    split
    · exact List.mem_append_left _ hx
    · exact hx

lemma videoStep_mono (acc : List String) (pr : Option String × List (Option String)) (x : String)
    (hx : x ∈ acc) : x ∈ videoStep acc pr := by
  unfold videoStep
  exact mem_foldl_of_mem pushIfSrc (fun a b y hy => pushIfSrc_mono a b y hy) pr.2 _ x
    (pushIfSrc_mono _ _ _ hx)

lemma srcScanStep_mono (acc : List String) (pr : Option String × Option String) (x : String)
    (hx : x ∈ acc) : x ∈ srcScanStep acc pr := by
  unfold srcScanStep
  exact pushIfVideoHost_mono _ _ _ (pushIfVideoHost_mono _ _ _ hx)

lemma gifStep_mono (acc : List String) (so : Option String) (x : String) (hx : x ∈ acc) :
    x ∈ gifStep acc so := by
  cases so with
  | none => simpa [gifStep] using hx
  | some s =>
    simp only [gifStep]
    split
    · cases hR : rewriteGifThumb s with
      | none => simpa [hR] using hx
      | some vurl =>
        simp only [hR]
        split
        · exact List.mem_append_left _ hx
        · exact hx
    · exact hx

lemma gifStep_adds (acc : List String) (s i : String) (h2 : s ≠ "")
    (h3 : containsSubstr s "tweet_video" = true) (h4 : search1cap gifRE s = some i) :
    gifVideoUrl i ∈ gifStep acc (some s) := by
  have hR : rewriteGifThumb s = some (gifVideoUrl i) := by
    unfold rewriteGifThumb
    rw [h4]
    rfl
  simp only [gifStep]
  rw [if_pos ⟨h2, h3⟩, hR]
  show gifVideoUrl i ∈ if gifVideoUrl i ∉ acc then acc ++ [gifVideoUrl i] else acc
  split
  · exact List.mem_append_right _ (List.mem_singleton.mpr rfl)
  · next hnn => exact not_not.mp hnn

lemma gif_fold_mem (s i : String) (h2 : s ≠ "")
    (h3 : containsSubstr s "tweet_video" = true) (h4 : search1cap gifRE s = some i) :
    ∀ (l : List (Option String)) (acc : List String), some s ∈ l →
      gifVideoUrl i ∈ l.foldl gifStep acc := by
  intro l
  induction l with
  | nil => intro acc h; simp at h
  | cons a t ih =>
    intro acc hmem
    rcases List.mem_cons.mp hmem with heq | htail
    · have hstep : gifVideoUrl i ∈ gifStep acc a := by
        rw [← heq]
        exact gifStep_adds acc s i h2 h3 h4
      exact mem_foldl_of_mem gifStep gifStep_mono t _ _ hstep
    · exact ih (gifStep acc a) htail

/-! ## Helper lemmas about photo normalization -/

lemma data_append (s t : String) : (s ++ t).data = s.data ++ t.data := by
  cases s
  cases t
  rfl

lemma takeWhile_all {p : Char → Bool} : ∀ (l : List Char), ∀ c ∈ l.takeWhile p, p c = true := by
  intro l
  induction l with
  | nil => simp
  | cons a t ih =>
    intro c hc
    by_cases h : p a
    · rw [List.takeWhile_cons_of_pos h] at hc
      rcases List.mem_cons.mp hc with rfl | hc2
      · exact h
      · exact ih c hc2
    · rw [List.takeWhile_cons_of_neg h] at hc
      simp at hc

lemma takeWhile_append_left {p : Char → Bool} :
    ∀ (l r : List Char), (∀ c ∈ l, p c = true) → (l ++ r).takeWhile p = l ++ r.takeWhile p := by
  intro l
  induction l with
  | nil => intro r _; simp
  | cons a t ih =>
    intro r h
    have ha : p a = true := h a (List.mem_cons_self _ _)
    simp only [List.cons_append, List.takeWhile_cons_of_pos ha]
    rw [ih r (fun c hc => h c (List.mem_cons_of_mem _ hc))]

/-- Re-splitting an already-normalized photo URL at `?` recovers the base:
the normalization of media_extractor.py line 108 is stable. -/
lemma beforeQ_norm (s : String) : beforeQ (beforeQ s ++ "?name=4096x4096") = beforeQ s := by
  unfold beforeQ
  apply congrArg String.mk
  rw [data_append]
  have hq : ("?name=4096x4096" : String).data = '?' :: ("name=4096x4096" : String).data := rfl
  rw [hq]
  have hall : ∀ c ∈ (String.data s).takeWhile (fun c => c != '?'), (fun c => c != '?') c = true :=
    takeWhile_all _
  rw [takeWhile_append_left _ _ hall]
  have : List.takeWhile (fun c => c != '?') ('?' :: ("name=4096x4096" : String).data) = [] := by
    rw [List.takeWhile_cons_of_neg]
    simp
  rw [this, List.append_nil]

/-- The property every photo record of media_extractor.py satisfies. -/
def normalizedPhoto (m : MediaRec) : Prop :=
  m.type = "photo" → m.url = beforeQ m.url ++ "?name=4096x4096"

lemma photoStep_prop (acc : List MediaRec) (im : Node) (m : MediaRec)
    (hm : m ∈ photoStep acc im) : m ∈ acc ∨ normalizedPhoto m := by
  cases him : im.getAttr "src" with
  | none =>
    simp only [photoStep, him] at hm
    exact Or.inl hm
  | some s =>
    simp only [photoStep, him] at hm
    split at hm
    · split at hm
      · exact Or.inl hm
      · rcases List.mem_append.mp hm with h1 | h2
        · exact Or.inl h1
        · simp only [List.mem_singleton] at h2
          subst h2
          refine Or.inr (fun _ => ?_)
          show beforeQ s ++ "?name=4096x4096" =
            beforeQ (beforeQ s ++ "?name=4096x4096") ++ "?name=4096x4096"
          rw [beforeQ_norm]
    · exact Or.inl hm

lemma videoRecStep_prop (acc : List MediaRec) (v : Node) (m : MediaRec)
    (hm : m ∈ videoRecStep acc v) : m ∈ acc ∨ normalizedPhoto m := by
  cases hv : v.getAttr "src" with
  | none =>
    simp only [videoRecStep, hv] at hm
    exact Or.inl hm
  | some s =>
    simp only [videoRecStep, hv] at hm
    split at hm
    · rcases List.mem_append.mp hm with h1 | h2
      · exact Or.inl h1
      · simp only [List.mem_singleton] at h2
        subst h2
        refine Or.inr (fun h => ?_)
        simp at h
    · exact Or.inl hm

lemma gifRecStep_prop (acc : List MediaRec) (g : Node) (m : MediaRec)
    (hm : m ∈ gifRecStep acc g) : m ∈ acc ∨ normalizedPhoto m := by
  cases hg : g.getAttr "src" with
  | none =>
    simp only [gifRecStep, hg] at hm
    exact Or.inl hm
  | some s =>
    simp only [gifRecStep, hg] at hm
    split at hm
    · rcases List.mem_append.mp hm with h1 | h2
      · exact Or.inl h1
      · simp only [List.mem_singleton] at h2
        subst h2
        refine Or.inr (fun h => ?_)
        simp at h
    · exact Or.inl hm

lemma rawMediaList_prop (page : Node) (m : MediaRec) (hm : m ∈ rawMediaList page) :
    normalizedPhoto m := by
  unfold rawMediaList at hm
  rcases mem_foldl_append_prop normalizedPhoto gifRecStep
      (fun acc a x hx => gifRecStep_prop acc a x hx) _ _ _ hm with h1 | h2
  · rcases mem_foldl_append_prop normalizedPhoto videoRecStep
        (fun acc a x hx => videoRecStep_prop acc a x hx) _ _ _ h1 with h3 | h4
    · rcases mem_foldl_append_prop normalizedPhoto photoStep
          (fun acc a x hx => photoStep_prop acc a x hx) _ _ _ h3 with h5 | h6
      · simp at h5
      · exact h6
    · exact h4
  · exact h2

/-! ## Claim C1: canonicalization idempotence -/

/-- C1: the claim states `canonicalize (canonicalize u) = canonicalize u`
for every valid post URL.  The chained `str.replace` of extractor.py line
99 re-replaces the `x.com` occurring inside `fixupx.com`, so a second
canonicalization changes the result again, and even a single
canonicalization of a twitter.com URL yields `fixupfixupx.com` instead of
the fixed proxy host: the code contradicts its own comment
`Convert to fixupx.com URL`. -/
theorem canonicalize_not_idempotent :
    canonicalize (canonicalize "https://x.com/alice/status/42") ≠
      canonicalize "https://x.com/alice/status/42" ∧
    canonicalize "https://x.com/alice/status/42" = "https://fixupx.com/alice/status/42" ∧
    canonicalize (canonicalize "https://x.com/alice/status/42") =
      "https://fixupfixupx.com/alice/status/42" ∧
    canonicalize "https://twitter.com/alice/status/42" =
      "https://fixupfixupx.com/alice/status/42" := by
  refine ⟨by decide, by decide, by decide, by decide⟩

/-! ## Claim C2: the fast-path meta-tag example -/

def htmlC2 : String :=
  "<meta property=\"og:image\" content=\"https://cdn.example/img1.jpg\"><meta property=\"og:title\" content=\"Jane Doe (@janedoe)\">"

def urlC2 : String := "https://fixupx.com/janedoe/status/1"

/-- C2 (counterexample): on the claimed input the fast path yields
`author_name = "Jane Doe ()"`, not `"Jane Doe"`: line 55 removes only the
handle from the title, leaving the surrounding parentheses, and `strip`
removes whitespace, not parentheses. -/
theorem fastpath_example_username_parens :
    (extract_from_meta_tags htmlC2 urlC2).map TweetData.username = some "Jane Doe ()" ∧
    ("Jane Doe ()" : String) ≠ "Jane Doe" := by
  refine ⟨by decide, by decide⟩

/-- C2 (amended): for the HTML with og:image `https://cdn.example/img1.jpg`
and og:title `Jane Doe (@janedoe)`, the fast path returns author_name
`"Jane Doe ()"` (the handle is removed from the title but the empty
parentheses remain), author_handle `"@janedoe"`, exactly one photo media
item at that URL, an empty video list, and no failure. -/
theorem fastpath_example_result :
    extract_from_meta_tags htmlC2 urlC2 =
      some ⟨"Jane Doe ()", "@janedoe", "", ["https://cdn.example/img1.jpg"], [], "Unknown"⟩ := by
  decide

/-! ## Claim C3: the fast-path error classifier -/

/-- C3: on a 200 fast-path response, the pipeline terminates with the
source-error result exactly when the body contains the error phrase and no
`og:image` marker; with both the phrase and a marker present, extraction
proceeds (meta-tag extraction or fallthrough, never the error result). -/
theorem fastPhase_source_error_iff (url body : String) :
    fastPhase url 200 body = .terminate (.errR "twitter_error" twitterErrMsg) ↔
      (containsSubstr body "Something went wrong" = true ∧
        containsSubstr body "og:image" = false) := by
  unfold fastPhase
  rw [if_neg (by omega : ¬ (200 ≠ 200))]
  by_cases hc : (containsSubstr body "Something went wrong" &&
      !containsSubstr body "og:image") = true
  · rw [if_pos hc]
    simp only [Bool.and_eq_true, Bool.not_eq_true'] at hc
    simp [hc]
  · rw [if_neg hc]
    simp only [Bool.and_eq_true, Bool.not_eq_true'] at hc
    constructor
    · intro h
      exfalso
      cases he : extract_from_meta_tags body (canonicalize url) with
      | none =>
        rw [he] at h
        exact FastStep.noConfusion h
      | some d =>
        rw [he] at h
        split at h
        · split at h
          · exact PyResult.noConfusion (FastStep.terminate.inj h)
          · exact FastStep.noConfusion h
        · exact FastStep.noConfusion h
    · intro hcc
      exact absurd hcc hc

/-- C3 (witness): a body consisting of the error phrase alone is classified
as a source error. -/
theorem fastPhase_source_error_iff_witness :
    fastPhase "https://x.com/a/status/1" 200 "Something went wrong" =
      .terminate (.errR "twitter_error" twitterErrMsg) :=
  (fastPhase_source_error_iff "https://x.com/a/status/1" "Something went wrong").mpr
    ⟨by decide, by decide⟩

/-! ## Claim C4: the URL handle fallback -/

/-- C4 (amended): when the title yields no handle and the URL matches
`/<seg>/status/`, the meta-tag parser sets the handle to `@<seg>` and
always overwrites the display name with `<seg>` as well, even when a name
had been resolved from the title (extractor.py lines 59-64 assign both
unconditionally). -/
theorem url_fallback_sets_handle_and_name (html url seg : String)
    (hTitle : (parseAuthorFromTitle html).2 = "@unknown")
    (hUrl : search1cap urlHandleRE url = some seg) (d : TweetData)
    (hres : extract_from_meta_tags html url = some d) :
    d.handle = "@" ++ seg ∧ d.username = seg := by
  have ha : authorWithUrlFallback html url = (seg, "@" ++ seg) := by
    unfold authorWithUrlFallback
    rw [if_pos hTitle, hUrl]
  unfold extract_from_meta_tags at hres
  split at hres
  · have hd := Option.some.inj hres
    subst hd
    constructor
    · show (authorWithUrlFallback html url).2 = "@" ++ seg
      rw [ha]
    · show (authorWithUrlFallback html url).1 = seg
      rw [ha]
  · exact Option.noConfusion hres

def htmlC4w : String := "<meta property=\"og:image\" content=\"https://cdn.example/x.jpg\">"

def urlC4 : String := "https://fixupx.com/alice/status/42"

/-- C4 (witness): with no og:title at all and the canonical URL
`.../alice/status/42`, the handle falls back to `@alice`. -/
theorem url_fallback_sets_handle_and_name_witness :
    (parseAuthorFromTitle htmlC4w).2 = "@unknown" ∧
    (⟨"alice", "@alice", "", ["https://cdn.example/x.jpg"], [], "Unknown"⟩ : TweetData).handle =
        "@" ++ "alice" ∧
    (⟨"alice", "@alice", "", ["https://cdn.example/x.jpg"], [], "Unknown"⟩ : TweetData).username =
        "alice" :=
  ⟨by decide,
   url_fallback_sets_handle_and_name htmlC4w urlC4 "alice" (by decide) (by decide)
     ⟨"alice", "@alice", "", ["https://cdn.example/x.jpg"], [], "Unknown"⟩ (by decide)⟩

def htmlC4c : String :=
  "<meta property=\"og:image\" content=\"https://cdn.example/x.jpg\"><meta property=\"og:title\" content=\"Jane Doe\">"

/-- C4 (counterexample): the og:title resolves the display name
`"Jane Doe"` (no parenthesized handle), yet the final username is the URL
segment `"alice"`: the name resolved from the title is NOT kept, contrary
to the claim. -/
theorem url_fallback_discards_title_name :
    (parseAuthorFromTitle htmlC4c).1 = "Jane Doe" ∧
    (extract_from_meta_tags htmlC4c urlC4).map TweetData.username = some "alice" := by
  refine ⟨by decide, by decide⟩

/-! ## Claim C5: the GIF-thumbnail rewrite -/

/-- C5 (amended): an `img` whose effective source matches the GIF pattern
with captured id `i` contributes exactly one Video item at
`https://video.twimg.com/tweet_video/<i>.mp4` (presence by the push of
line 301, uniqueness by the final Set dedup), and any source capturing the
same id rewrites to the identical URL.  The rewrite does NOT suppress the
photo classification of the same element (see the counterexample). -/
theorem gif_rewrite_unique (p now : String) (art : Node) (s i : String)
    (h1 : some s ∈ gifSources art) (h2 : s ≠ "")
    (h3 : containsSubstr s "tweet_video" = true)
    (h4 : search1cap gifRE s = some i) :
    (extractArticle p now art).video_urls.count (gifVideoUrl i) = 1 ∧
    (∀ t : String, search1cap gifRE t = some i → rewriteGifThumb t = some (gifVideoUrl i)) := by
  constructor
  · have hmemAV : gifVideoUrl i ∈ articleVideos art := by
      unfold articleVideos
      refine mem_foldl_of_mem pushIfVideoHost
        (fun a b y hy => pushIfVideoHost_mono a b y hy) _ _ _ ?_
      exact gif_fold_mem s i h2 h3 h4 (gifSources art) _ h1
    have hmem : gifVideoUrl i ∈ dedupStr (articleVideos art) :=
      mem_dedupStr _ [] _ hmemAV (by simp)
    have hnd : (dedupStr (articleVideos art)).Nodup := by
      have h := (dedupBy_nodup_key (fun s => s) (articleVideos art) []).1
      simpa [List.map_id'] using h
    show (dedupStr (articleVideos art)).count (gifVideoUrl i) = 1
    exact List.count_eq_one_of_mem hnd hmem
  · intro t ht
    unfold rewriteGifThumb
    rw [ht]
    rfl

def artC5 : Node :=
  .elem "article" [("role", "article")]
    [.elem "img" [("src", "https://pbs.twimg.com/tweet_video_thumb/ABC9.jpg")] []]

/-- C5 (witness): a concrete article holding one GIF thumbnail; the
rewritten video URL appears exactly once. -/
theorem gif_rewrite_unique_witness :
    (some "https://pbs.twimg.com/tweet_video_thumb/ABC9.jpg" ∈ gifSources artC5) ∧
    (extractArticle "/a/status/1" "T" artC5).video_urls.count (gifVideoUrl "ABC9") = 1 :=
  ⟨by decide,
   (gif_rewrite_unique "/a/status/1" "T" artC5
     "https://pbs.twimg.com/tweet_video_thumb/ABC9.jpg" "ABC9"
     (by decide) (by decide) (by decide) (by decide)).1⟩

/-- C5 (counterexample): the same thumbnail element is ALSO kept as a photo
(its source contains `pbs.twimg.com` and none of the exclusion markers of
lines 263-266 — `tweet_video_thumb` is not excluded), so the video rewrite
does not take precedence over photo classification. -/
theorem gif_thumb_also_photo :
    (extractArticle "/a/status/1" "T" artC5).media_urls =
      ["https://pbs.twimg.com/tweet_video_thumb/ABC9.jpg"] ∧
    (extractArticle "/a/status/1" "T" artC5).video_urls =
      ["https://video.twimg.com/tweet_video/ABC9.mp4"] := by
  refine ⟨by decide, by decide⟩

/-! ## Claim C6: photo-resolution normalization -/

/-- C6 (amended): the media_extractor.py article scan normalizes every
photo URL (query stripped, maximum-resolution parameter appended, lines
105-109), but the twitter_capture extractor delivers its photo URLs exactly
as discovered: its fast-path media list is the raw og:image/twitter:image
content list, with no size rewrite (see the counterexample for a surviving
thumbnail-size parameter). -/
theorem photo_normalization_scope :
    (∀ (page : Node) (m : MediaRec), m ∈ extract_media_from_tweet page →
      m.type = "photo" → m.url = beforeQ m.url ++ "?name=4096x4096") ∧
    (∀ (html url : String) (d : TweetData), extract_from_meta_tags html url = some d →
      d.media_urls = metaImageUrls html) := by
  constructor
  · intro page m hm htype
    have hraw : m ∈ rawMediaList page :=
      (dedupBy_sublist MediaRec.url (rawMediaList page) []).subset hm
    exact rawMediaList_prop page m hraw htype
  · intro html url d hres
    unfold extract_from_meta_tags at hres
    split at hres
    · have hd := Option.some.inj hres
      subst hd
      rfl
    · exact Option.noConfusion hres

def pageC6 : Node :=
  .elem "html" []
    [.elem "article" [("role", "article")]
      [.elem "img" [("src", "https://pbs.twimg.com/media/Q.jpg?name=small")] []]]

/-- C6 (witness): the media_extractor scan rewrites a small-size photo URL
to the maximum-resolution form. -/
theorem photo_normalization_scope_witness :
    (⟨"photo", "https://pbs.twimg.com/media/Q.jpg?name=4096x4096"⟩ : MediaRec) ∈
        extract_media_from_tweet pageC6 ∧
    ("https://pbs.twimg.com/media/Q.jpg?name=4096x4096" : String) =
      beforeQ "https://pbs.twimg.com/media/Q.jpg?name=4096x4096" ++ "?name=4096x4096" :=
  ⟨by decide,
   photo_normalization_scope.1 pageC6
     ⟨"photo", "https://pbs.twimg.com/media/Q.jpg?name=4096x4096"⟩ (by decide) (by decide)⟩

def htmlC6 : String :=
  "<meta property=\"og:image\" content=\"https://pbs.twimg.com/media/ABC?format=jpg&name=small\">"

def urlC6 : String := "https://fixupx.com/a/status/1"

/-- C6 (counterexample): a fast-path extraction delivers a photo URL whose
`name=small` thumbnail-size parameter survives unchanged — no stripping and
no maximum-resolution parameter. -/
theorem fastpath_photo_not_normalized :
    (extract_from_meta_tags htmlC6 urlC6).map TweetData.media_urls =
      some ["https://pbs.twimg.com/media/ABC?format=jpg&name=small"] ∧
    ("https://pbs.twimg.com/media/ABC?format=jpg&name=small" : String) ≠
      beforeQ "https://pbs.twimg.com/media/ABC?format=jpg&name=small" ++ "?name=4096x4096" := by
  refine ⟨by decide, by decide⟩

/-! ## Claim C7: deduplication of the final media list -/

/-- C7 (amended): the dedup guarantee holds where a dedup pass exists —
media_extractor.py compares post-normalization URLs in first-seen order
(the output URL list has no duplicates, the output is a sublist of the raw
discovery list, and every discovered URL is represented), and the fast-path
image list is deduplicated at collection time — but the article-DOM photo
list of twitter_capture has no dedup pass at all (see the counterexample). -/
theorem dedup_scope :
    (∀ page : Node, ((extract_media_from_tweet page).map MediaRec.url).Nodup) ∧
    (∀ page : Node, List.Sublist (extract_media_from_tweet page) (rawMediaList page)) ∧
    (∀ (page : Node) (m : MediaRec), m ∈ rawMediaList page →
      m.url ∈ (extract_media_from_tweet page).map MediaRec.url) ∧
    (∀ (html url : String) (d : TweetData), extract_from_meta_tags html url = some d →
      d.media_urls.Nodup) := by
  refine ⟨?_, ?_, ?_, ?_⟩
  · intro page
    exact (dedupBy_nodup_key MediaRec.url (rawMediaList page) []).1
  · intro page
    exact dedupBy_sublist MediaRec.url (rawMediaList page) []
  · intro page m hm
    rcases dedupBy_mem_key MediaRec.url (rawMediaList page) [] m hm with h1 | h2
    · simp at h1
    · exact h2
  · intro html url d hres
    unfold extract_from_meta_tags at hres
    split at hres
    · have hd := Option.some.inj hres
      subst hd
      exact metaImageUrls_nodup html
    · exact Option.noConfusion hres

def artC7 : Node :=
  .elem "article" [("role", "article")]
    [.elem "img" [("src", "https://pbs.twimg.com/media/dup.jpg")] [],
     .elem "img" [("src", "https://pbs.twimg.com/media/dup.jpg")] []]

/-- C7 (counterexample): two article images with identical sources are both
kept — the final media list of the article tier contains a duplicated URL,
so it is not true that no two items of every final media list share a URL. -/
theorem article_photos_duplicate :
    (extractArticle "/a/status/1" "T" artC7).media_urls =
      ["https://pbs.twimg.com/media/dup.jpg", "https://pbs.twimg.com/media/dup.jpg"] ∧
    ¬ (extractArticle "/a/status/1" "T" artC7).media_urls.Nodup := by
  refine ⟨by decide, by decide⟩

def htmlC7 : String := "<meta property=\"og:image\" content=\"https://cdn.example/one.jpg\">"

def urlC7 : String := "https://fixupx.com/bob/status/7"

/-- C7 (witness): a concrete fast-path extraction whose media list is
duplicate-free. -/
theorem dedup_scope_witness :
    extract_from_meta_tags htmlC7 urlC7 =
      some ⟨"bob", "@bob", "", ["https://cdn.example/one.jpg"], [], "Unknown"⟩ ∧
    (["https://cdn.example/one.jpg"] : List String).Nodup :=
  ⟨by decide,
   dedup_scope.2.2.2 htmlC7 urlC7
     ⟨"bob", "@bob", "", ["https://cdn.example/one.jpg"], [], "Unknown"⟩ (by decide)⟩

/-! ## Claim C8: the four-photo cap -/

/-- C8: whenever at least 5 distinct qualifying images are present, exactly
the first 4 (in document order, which is the order of `qualifyingImgs`) are
kept as photos, while every discovered video/GIF URL survives into the
video list (only deduplicated, never capped). -/
theorem photo_cap_four (p now : String) (art : Node)
    (h5 : 5 ≤ (qualifyingImgs art).length) (_hnd : (qualifyingImgs art).Nodup) :
    (extractArticle p now art).media_urls = (qualifyingImgs art).take 4 ∧
    (extractArticle p now art).media_urls.length = 4 ∧
    ∀ v ∈ articleVideos art, v ∈ (extractArticle p now art).video_urls := by
  refine ⟨rfl, ?_, ?_⟩
  · show ((qualifyingImgs art).take 4).length = 4
    rw [List.length_take]
    omega
  · intro v hv
    show v ∈ dedupStr (articleVideos art)
    exact mem_dedupStr _ [] _ hv (by simp)

def artC8 : Node :=
  .elem "article" [("role", "article")]
    [.elem "img" [("src", "https://pbs.twimg.com/media/p1.jpg")] [],
     .elem "img" [("src", "https://pbs.twimg.com/media/p2.jpg")] [],
     .elem "img" [("src", "https://pbs.twimg.com/media/p3.jpg")] [],
     .elem "img" [("src", "https://pbs.twimg.com/media/p4.jpg")] [],
     .elem "img" [("src", "https://pbs.twimg.com/media/p5.jpg")] []]

/-- C8 (witness): five distinct qualifying images; the photo list length is
exactly 4. -/
theorem photo_cap_four_witness :
    5 ≤ (qualifyingImgs artC8).length ∧
    (extractArticle "/a/status/1" "T" artC8).media_urls.length = 4 :=
  ⟨by decide, (photo_cap_four "/a/status/1" "T" artC8 (by decide) (by decide)).2.1⟩

/-! ## Claim C9: failure reporting -/

/-- C9 (amended): no exception escapes the pipeline — every failure path is
caught — but the failure paths do not return a record with a failure field
set: a fetch exception, a non-200 fast-path status, and a render
failure/exception all return Python `None` (only the two source-error
detections return a typed error record). -/
theorem failure_paths_return_none (url : String) (env : Env) :
    (env.fetchCrash = true → extract_tweet_data url env = .noneR) ∧
    (env.fetchCrash = false → env.status ≠ 200 → extract_tweet_data url env = .noneR) ∧
    (env.fetchCrash = false → env.render = .crash →
      fastPhase url env.status env.body = .fallthrough →
      extract_tweet_data url env = .noneR) := by
  refine ⟨?_, ?_, ?_⟩
  · intro h
    unfold extract_tweet_data
    rw [if_pos h]
  · intro hf hs
    unfold extract_tweet_data
    rw [if_neg (by simp [hf])]
    have hfast : fastPhase url env.status env.body = .terminate .noneR := by
      unfold fastPhase
      rw [if_pos hs]
    rw [hfast]
  · intro hf hr hfast
    unfold extract_tweet_data
    rw [if_neg (by simp [hf]), hfast]
    unfold renderPhase
    rw [hr]

def envC9 : Env := ⟨false, 404, "", .crash, "/a/status/1", "t"⟩

/-- C9 (counterexample): at a 404 fast-path status the pipeline returns
Python `None` — not a well-formed result record with the failure field set,
as the claim requires. -/
theorem non200_returns_none :
    extract_tweet_data "https://x.com/a/status/1" envC9 = PyResult.noneR := by
  decide

/-- C9 (witness): the non-200 branch of the amended statement at the
concrete 404 environment. -/
theorem failure_paths_return_none_witness :
    envC9.status ≠ 200 ∧
    extract_tweet_data "https://x.com/a/status/1" envC9 = PyResult.noneR :=
  ⟨by decide,
   (failure_paths_return_none "https://x.com/a/status/1" envC9).2.1 rfl (by decide)⟩

/-! ## Claim C10: meta-tag tiers never deliver videos -/

/-- C10: every record returned by the fast-path meta-tag tier carries an
empty video list (the dict of extractor.py line 78), and so does every
record returned by the rendered-page meta-tag tier (the dict of lines
196-203): video URLs are discovered only by the article-DOM tier. -/
theorem meta_tiers_no_videos :
    (∀ (html url : String) (d : TweetData), extract_from_meta_tags html url = some d →
      d.video_urls = []) ∧
    (∀ (env : Env) (meta : RMeta) (content : String) (af : Bool) (artOpt : Option Node),
      env.render = .ok meta content af artOpt → meta.has_meta = true →
      meta.media_urls ≠ [] →
      renderPhase env =
        .dataR ⟨meta.username, meta.handle, meta.text, meta.media_urls, [], "Unknown"⟩) := by
  constructor
  · intro html url d hres
    unfold extract_from_meta_tags at hres
    split at hres
    · have hd := Option.some.inj hres
      subst hd
      rfl
    · exact Option.noConfusion hres
  · intro env meta content af artOpt hrender hmeta hmedia
    have hcond : (meta.has_meta && !meta.media_urls.isEmpty) = true := by
      cases hml : meta.media_urls with
      | nil => exact absurd hml hmedia
      | cons a t => rw [hmeta]; simp
    simp only [renderPhase, hrender]
    rw [if_pos hcond]

def htmlC10 : String := "<meta property=\"og:image\" content=\"https://cdn.example/i.jpg\">"

def urlC10 : String := "https://fixupx.com/bo/status/9"

/-- C10 (witness): a concrete fast-path success; its video list is empty. -/
theorem meta_tiers_no_videos_witness :
    extract_from_meta_tags htmlC10 urlC10 =
      some ⟨"bo", "@bo", "", ["https://cdn.example/i.jpg"], [], "Unknown"⟩ ∧
    (⟨"bo", "@bo", "", ["https://cdn.example/i.jpg"], [], "Unknown"⟩ : TweetData).video_urls =
      [] :=
  ⟨by decide,
   meta_tiers_no_videos.1 htmlC10 urlC10
     ⟨"bo", "@bo", "", ["https://cdn.example/i.jpg"], [], "Unknown"⟩ (by decide)⟩
